import Mathlib

/-!
Verification of the snapllm whisper-stt streaming speech-to-text pipeline
(src/sidecars/whisper-stt). Audio samples are modelled as rationals, clock
instants as integers counting milliseconds, and the external whisper engine
as an oracle returning `Option String` (`none` models a failed
`whisper_full` call, `some text` models success with the concatenated
segment text). One pass of the worker loop body in `InferenceEngine::run`
is modelled as a pure state transformer `run_iteration`.
-/

namespace SnapLLM

/-! ### Constants, from `InferenceEngine::Impl` and `InferenceEngine::run` -/

/-- Model sample rate, hard-coded to 16000 in `InferenceEngine::init`. -/
def sample_rate : ℕ := 16000

/-- The silence threshold `Impl::SILENCE_THRESHOLD_MS = 700` (ms). -/
def SILENCE_THRESHOLD_MS : ℤ := 700

/-- The safety cap `Impl::MAX_BUFFER_SECONDS = 60`. -/
def MAX_BUFFER_SECONDS : ℕ := 60

/-- The retention cap `max_samples = MAX_BUFFER_SECONDS * sample_rate` as in `add_audio`. -/
def max_samples : ℕ := MAX_BUFFER_SECONDS * sample_rate

/-- One second of samples, `one_second_samples = sample_rate` as in `run`. -/
def one_second_samples : ℕ := sample_rate

/-- The minimum chunk `min_chunk_samples = sample_rate / 2` (0.5 s) as in `run`. -/
def min_chunk_samples : ℕ := sample_rate / 2

/-- The VAD sub-window length `(size_t)(impl->sample_rate * 0.3)` from
`run`: 16000 × 0.3 = 4800.0 truncated to 4800 samples (300 ms). -/
def vad_window_samples : ℕ := 4800

/-- The fixed constant `const float ENERGY_THRESHOLD = 0.003f` declared
locally inside `InferenceEngine::run`. -/
def ENERGY_THRESHOLD : ℚ := 3 / 1000

/-! ### Data model, from `inference.hpp` -/

/-- The struct `snapllm::InferenceParams` (inference.hpp): the engine configuration.
Note its exact field list: there is no VAD-threshold field. -/
structure InferenceParams where
  model_path : String
  language : String
  translate : Bool
  n_threads : ℤ
  deriving DecidableEq, Repr

/-- The struct `snapllm::TranscriptionResult` (inference.hpp). -/
structure TranscriptionResult where
  text : String
  is_final : Bool
  t0 : ℤ
  t1 : ℤ
  deriving DecidableEq, Repr

/-- The mutable state of `InferenceEngine::Impl` relevant to buffering,
VAD and finality: `audio_buffer`, `processed_samples`, `had_speech`,
`last_voice_time` (an instant, in milliseconds). -/
structure EngineState where
  audio_buffer : List ℚ
  processed_samples : ℕ
  had_speech : Bool
  last_voice_time : ℤ
  deriving DecidableEq, Repr

/-! ### `InferenceEngine::add_audio` (inference.cpp lines 80–103) -/

/-- The producer append `add_audio`: append `pcm_data` to the tail, then enforce the retention
cap by dropping the oldest samples and shifting `processed_samples` down
by the dropped count, floored at zero (the `remove >= size` degenerate
branch clears everything and zeroes the offset, exactly as the source). -/
def add_audio (s : EngineState) (pcm_data : List ℚ) : EngineState :=
  let buffer := s.audio_buffer ++ pcm_data
  if buffer.length > max_samples then
    let remove := buffer.length - max_samples
    if remove ≥ buffer.length then
      { s with audio_buffer := [], processed_samples := 0 }
    else
      { s with
          audio_buffer := buffer.drop remove,
          processed_samples :=
            if s.processed_samples > remove then s.processed_samples - remove
            else 0 }
  else
    { s with audio_buffer := buffer }

/-! ### VAD (`calculate_rms_samples`, inference.cpp lines 70–78 and 161–173)

`calculate_rms_samples` returns `sqrt (Σ vᵢ² / n)` (and 0 when `n = 0`).
Since the threshold is positive and the mean square is nonnegative,
`rms ≥ threshold  ↔  mean-square ≥ threshold²`, so the embedded decision
compares mean squares, which keeps it executable over ℚ; the theorem
`C4_vad_trailing_rms` relates it back to the literal square root. -/

/-- Sum of squares of a sample buffer, the loop of `calculate_rms_samples`. -/
def sumSquares (data : List ℚ) : ℚ := (data.map (fun v => v * v)).sum

/-- The mean square `Σ vᵢ² / n` of a buffer, i.e. the square of the value
returned by `calculate_rms_samples`; 0 when the buffer is empty, matching
the `n == 0` early return. -/
def meanSquare (data : List ℚ) : ℚ :=
  if data.length = 0 then 0 else sumSquares data / data.length

/-- The trailing VAD sub-window of a work buffer:
`window_samples = min (size, 4800)` and the slice
`work_buf.data() + (size - window_samples) .. end`, from `run`. -/
def vad_window (work_buf : List ℚ) : List ℚ :=
  work_buf.drop (work_buf.length - min work_buf.length vad_window_samples)

/-- The decision `voice_now = (rms >= ENERGY_THRESHOLD)` from `run`, stated on squares
(equivalent since both sides are nonnegative and squaring is monotone). -/
def voice_now (work_buf : List ℚ) : Bool :=
  decide (ENERGY_THRESHOLD ^ 2 ≤ meanSquare (vad_window work_buf))

/-- The VAD state update in `run` (lines 170–173): when voice is detected
set `had_speech := true` and refresh `last_voice_time` to now; otherwise
leave the state untouched. -/
def vad_stage (s : EngineState) (work_buf : List ℚ) (now : ℤ) : EngineState :=
  if voice_now work_buf then
    { s with had_speech := true, last_voice_time := now }
  else s

/-! ### Snapshot extraction (inference.cpp lines 136–155) -/

/-- The window start index computed in `run`: 1 s overlap before the
processed offset, floored at 0. -/
def snap_start (s : EngineState) : ℕ :=
  if s.processed_samples > one_second_samples then
    s.processed_samples - one_second_samples
  else 0

/-- The locked snapshot block of `run`: when no new samples exist
(`total <= processed_samples`, e.g. after a concurrent clear) the pass
yields `none` (`continue`); otherwise it copies the buffer from
`snap_start` to the tail, and advances `processed_samples` to `total`. -/
def snapshot_stage (s : EngineState) : Option (List ℚ × EngineState) :=
  let total := s.audio_buffer.length
  if total ≤ s.processed_samples then none
  else
    some (s.audio_buffer.drop (snap_start s),
      { s with processed_samples := total })

/-! ### Finality classification and reset (inference.cpp lines 203–229) -/

/-- Finality decision of `run`: final iff `had_speech` and the elapsed
milliseconds since `last_voice_time` reach `SILENCE_THRESHOLD_MS`. -/
def classify_final (s : EngineState) (now : ℤ) : Bool :=
  s.had_speech && decide (SILENCE_THRESHOLD_MS ≤ now - s.last_voice_time)

/-- The post-callback reset of `run` (lines 221–229): on a final result
clear the buffer, zero `processed_samples` and reset `had_speech`. -/
def finalize_reset (s : EngineState) (isf : Bool) : EngineState :=
  if isf then
    { s with audio_buffer := [], processed_samples := 0, had_speech := false }
  else s

/-! ### One pass of the worker loop (inference.cpp lines 124–230) -/

/-- Observable outcome of one loop pass: the engine state afterwards, the
result delivered to the callback (if any), and whether `whisper_full`
was invoked. -/
structure IterationOutcome where
  state : EngineState
  emitted : Option TranscriptionResult
  decode_called : Bool
  deriving DecidableEq, Repr

/-- One pass of the `run` worker loop body after the wake, with the
whisper engine as an oracle `dec` (given the engine configuration and
the work buffer; `none` models `whisper_full(...) != 0`). `now_vad` is
the clock read at the VAD update (line 172) and `now_fin` the later read
at the finality check (line 206). -/
def run_iteration (p : InferenceParams) (s : EngineState)
    (dec : InferenceParams → List ℚ → Option String)
    (now_vad now_fin : ℤ) : IterationOutcome :=
  match snapshot_stage s with
  | none => ⟨s, none, false⟩
  | some (work_buf, s1) =>
    if work_buf.length < min_chunk_samples then ⟨s1, none, false⟩
    else
      let s2 := vad_stage s1 work_buf now_vad
      match dec p work_buf with
      | none => ⟨s2, some ⟨"", false, 0, 0⟩, true⟩
      | some text =>
        let isf := classify_final s2 now_fin
        ⟨finalize_reset s2 isf, some ⟨text, isf, 0, 0⟩, true⟩

/-! ### Operation sequences over the store -/

/-- One externally triggered operation on the engine state: a producer
append (`add_audio`) or a worker pass (`run_iteration`). -/
inductive StoreOp where
  | append (pcm : List ℚ)
  | pass (p : InferenceParams) (dec : InferenceParams → List ℚ → Option String)
      (now_vad now_fin : ℤ)

/-- Apply one operation to the engine state. -/
def applyOp (s : EngineState) : StoreOp → EngineState
  | StoreOp.append pcm => add_audio s pcm
  | StoreOp.pass p dec tv tf => (run_iteration p s dec tv tf).state

/-- The engine state as constructed: empty buffer, zero offset, no speech. -/
def initState : EngineState :=
  { audio_buffer := [], processed_samples := 0, had_speech := false,
    last_voice_time := 0 }

/-- The buffer/offset invariant of the sample store:
`processed_samples ≤ length` and the retention cap. -/
def StoreInv (s : EngineState) : Prop :=
  s.processed_samples ≤ s.audio_buffer.length ∧
  s.audio_buffer.length ≤ max_samples

/-! ### Spec-side VAD with a configured threshold

Spec §4.3 demands that the VAD energy threshold be a configuration field
("the threshold is the single tunable knob and must be exposed in
configuration"). `InferenceParams` in the source has no such field; this
definition follows the spec's words for comparison with `voice_now`. -/

/-- Modelled from the spec: the voice decision of §4.3 with a configured
positive threshold — classify voice exactly when the trailing-window RMS
meets or exceeds the configured threshold (stated on squares, as for
`voice_now`). -/
def spec_voice_now (threshold : ℚ) (work_buf : List ℚ) : Bool :=
  decide (threshold ^ 2 ≤ meanSquare (vad_window work_buf))

/-! ### Pipeline controller (main.cpp and audio.cpp) -/

/-- Events written by `send_json` in main.cpp. -/
inductive Event where
  | error (msg : String)
  | statusStarted
  | statusStopped
  | transcription (text : String) (isf : Bool)
  deriving DecidableEq, Repr

/-- The resource flags of `AudioCapture::Context` (audio.cpp):
`context_inited`, `device_inited`, plus the `is_running` member. -/
structure CaptureState where
  context_inited : Bool
  device_inited : Bool
  is_running : Bool
  deriving DecidableEq, Repr

/-- The engine handle: whether a whisper context is loaded (`ctx` not
null in `InferenceEngine::Impl`). -/
structure EngineHandle where
  ctx_loaded : Bool
  deriving DecidableEq, Repr

/-- The module-level globals of main.cpp: `audio_capture`,
`inference_engine` (unique_ptr, `none` when empty) and `is_processing`. -/
structure GlobalState where
  audio_capture : Option CaptureState
  inference_engine : Option EngineHandle
  is_processing : Bool
  deriving DecidableEq, Repr

/-- The process start state: empty globals, not processing. -/
def idleState : GlobalState := ⟨none, none, false⟩

/-- Model of `AudioCapture::start` on a freshly constructed capture
(`device_inited = false`, so it first runs `init()`): `ma_context_init`,
then `ma_device_init`, then `ma_device_start`, each modelled by an oracle
flag; failing at a step returns false and leaves the flags acquired so
far set, exactly as audio.cpp does. -/
def capture_start (ctxOk devOk startOk : Bool) : CaptureState × Bool :=
  if !ctxOk then (⟨false, false, false⟩, false)
  else if !devOk then (⟨true, false, false⟩, false)
  else if !startOk then (⟨true, true, false⟩, false)
  else (⟨true, true, true⟩, true)

/-- Model of `start_engine` (main.cpp lines 31–73): reject when already
processing; otherwise replace both globals with fresh objects, init the
engine (`whisperOk` models `whisper_init_from_file_with_params`
succeeding), start audio capture, and only then set `is_processing` and
report `status{started}`; each failure path emits exactly one error and
returns, leaving the globals as they are at that point. -/
def start_engine (g : GlobalState) (whisperOk ctxOk devOk startOk : Bool) :
    GlobalState × List Event :=
  if g.is_processing then (g, [Event.error "Already running"])
  else
    let g1 : GlobalState :=
      { g with
          audio_capture := some ⟨false, false, false⟩,
          inference_engine := some ⟨false⟩ }
    if !whisperOk then (g1, [Event.error "Failed to init model"])
    else
      let g2 := { g1 with inference_engine := some ⟨true⟩ }
      let capRes := capture_start ctxOk devOk startOk
      let g3 := { g2 with audio_capture := some capRes.1 }
      if !capRes.2 then (g3, [Event.error "Failed to start audio"])
      else ({ g3 with is_processing := true }, [Event.statusStarted])

/-- Whether any acquired resource is held in the globals: a loaded model
context, or an initialized miniaudio context or device, or a running
device. -/
def resources_held (g : GlobalState) : Bool :=
  (match g.inference_engine with
   | some e => e.ctx_loaded
   | none => false) ||
  (match g.audio_capture with
   | some c => c.context_inited || c.device_inited || c.is_running
   | none => false)

/-! ### Concrete fixtures used to exercise the model -/

/-- A default engine configuration, as built by `start_engine` in
main.cpp. -/
def params0 : InferenceParams := ⟨"models/ggml-base.en.bin", "en", false, 4⟩

/-- A decode oracle that always succeeds with the text "hello". -/
def dec_hello : InferenceParams → List ℚ → Option String :=
  fun _ _ => some "hello"

/-- A decode oracle that always fails (`whisper_full` returning
non-zero). -/
def dec_fail : InferenceParams → List ℚ → Option String := fun _ _ => none

/-- One second of full-scale samples, nothing processed, no speech yet. -/
def loudState : EngineState := ⟨List.replicate 16000 1, 0, false, 0⟩

/-- One second of exact silence with speech already flagged at instant 0. -/
def silentState : EngineState := ⟨List.replicate 16000 0, 0, true, 0⟩

/-- A near-empty buffer: 100 samples, below the minimum chunk. -/
def shortState : EngineState := ⟨List.replicate 100 1, 0, false, 0⟩

/-! ## Helper lemmas -/

theorem vad_stage_audio_buffer (s : EngineState) (wb : List ℚ) (t : ℤ) :
    (vad_stage s wb t).audio_buffer = s.audio_buffer := by
  unfold vad_stage; split <;> rfl

theorem vad_stage_processed (s : EngineState) (wb : List ℚ) (t : ℤ) :
    (vad_stage s wb t).processed_samples = s.processed_samples := by
  unfold vad_stage; split <;> rfl

theorem vad_stage_of_voice {wb : List ℚ} (s : EngineState) (t : ℤ)
    (h : voice_now wb = true) :
    vad_stage s wb t = { s with had_speech := true, last_voice_time := t } := by
  simp [vad_stage, h]

theorem vad_stage_of_silence {wb : List ℚ} (s : EngineState) (t : ℤ)
    (h : voice_now wb = false) : vad_stage s wb t = s := by
  simp [vad_stage, h]

theorem snapshot_stage_eq_none {s : EngineState}
    (h : s.audio_buffer.length ≤ s.processed_samples) :
    snapshot_stage s = none := by
  unfold snapshot_stage; simp [h]

theorem snapshot_stage_eq_some {s : EngineState}
    (h : s.processed_samples < s.audio_buffer.length) :
    snapshot_stage s = some (s.audio_buffer.drop (snap_start s),
      { s with processed_samples := s.audio_buffer.length }) := by
  unfold snapshot_stage; simp [Nat.not_le.mpr h]

theorem snapshot_stage_inversion {s s1 : EngineState} {wb : List ℚ}
    (h : snapshot_stage s = some (wb, s1)) :
    s.processed_samples < s.audio_buffer.length ∧
    wb = s.audio_buffer.drop (snap_start s) ∧
    s1 = { s with processed_samples := s.audio_buffer.length } := by
  by_cases hle : s.audio_buffer.length ≤ s.processed_samples
  · rw [snapshot_stage_eq_none hle] at h; cases h
  · have hlt := Nat.not_le.mp hle
    rw [snapshot_stage_eq_some hlt] at h
    obtain ⟨h1, h2⟩ := Prod.mk.injEq .. ▸ (Option.some.injEq .. ▸ h)
    exact ⟨hlt, h1.symm, h2.symm⟩

theorem max_samples_pos : 0 < max_samples := by
  simp [max_samples, sample_rate, MAX_BUFFER_SECONDS]

theorem add_audio_StoreInv (s : EngineState) (pcm : List ℚ)
    (h : StoreInv s) : StoreInv (add_audio s pcm) := by
  obtain ⟨h1, h2⟩ := h
  have hmax := max_samples_pos
  simp only [StoreInv, add_audio]
  split_ifs with hc hr hp <;>
    simp only [List.length_drop, List.length_append, List.length_nil]
      at * <;>
    omega

theorem run_iteration_StoreInv (p : InferenceParams) (s : EngineState)
    (dec : InferenceParams → List ℚ → Option String) (tv tf : ℤ)
    (h : StoreInv s) : StoreInv (run_iteration p s dec tv tf).state := by
  obtain ⟨h1, h2⟩ := h
  unfold run_iteration
  cases hsnap : snapshot_stage s with
  | none => exact ⟨h1, h2⟩
  | some pair =>
    obtain ⟨wb, s1⟩ := pair
    obtain ⟨hlt, hwb, hs1⟩ := snapshot_stage_inversion hsnap
    have hs1inv : StoreInv s1 := by rw [hs1]; exact ⟨le_refl _, h2⟩
    simp only []
    split_ifs with hshort
    · exact hs1inv
    · have hvad : StoreInv (vad_stage s1 wb tv) := by
        unfold StoreInv
        rw [vad_stage_audio_buffer, vad_stage_processed]
        exact hs1inv
      cases hdec : dec p wb with
      | none => exact hvad
      | some text =>
        simp only [finalize_reset]
        split_ifs with hf
        · exact ⟨Nat.le_refl 0, Nat.le_of_lt max_samples_pos⟩
        · exact hvad

theorem foldl_StoreInv (ops : List StoreOp) (s : EngineState)
    (h : StoreInv s) : StoreInv (ops.foldl applyOp s) := by
  induction ops generalizing s with
  | nil => exact h
  | cons op rest ih =>
    apply ih
    cases op with
    | append pcm => exact add_audio_StoreInv s pcm h
    | pass p dec tv tf => exact run_iteration_StoreInv p s dec tv tf h

theorem initState_StoreInv : StoreInv initState :=
  ⟨Nat.le_refl 0, Nat.le_of_lt max_samples_pos⟩

theorem run_iteration_of_none {s : EngineState}
    (p : InferenceParams) (dec : InferenceParams → List ℚ → Option String)
    (tv tf : ℤ) (h : snapshot_stage s = none) :
    run_iteration p s dec tv tf = ⟨s, none, false⟩ := by
  unfold run_iteration; rw [h]

theorem run_iteration_of_short {s s1 : EngineState} {wb : List ℚ}
    (p : InferenceParams) (dec : InferenceParams → List ℚ → Option String)
    (tv tf : ℤ) (h : snapshot_stage s = some (wb, s1))
    (hlen : wb.length < min_chunk_samples) :
    run_iteration p s dec tv tf = ⟨s1, none, false⟩ := by
  unfold run_iteration; rw [h]; simp [hlen]

theorem run_iteration_of_decode_fail {s s1 : EngineState} {wb : List ℚ}
    {p : InferenceParams} {dec : InferenceParams → List ℚ → Option String}
    (tv tf : ℤ) (h : snapshot_stage s = some (wb, s1))
    (hlen : ¬ wb.length < min_chunk_samples) (hdec : dec p wb = none) :
    run_iteration p s dec tv tf =
      ⟨vad_stage s1 wb tv, some ⟨"", false, 0, 0⟩, true⟩ := by
  unfold run_iteration; rw [h]; simp [hlen, hdec]

theorem run_iteration_of_decode_ok {s s1 : EngineState} {wb : List ℚ}
    {p : InferenceParams} {dec : InferenceParams → List ℚ → Option String}
    {text : String} (tv tf : ℤ) (h : snapshot_stage s = some (wb, s1))
    (hlen : ¬ wb.length < min_chunk_samples) (hdec : dec p wb = some text) :
    run_iteration p s dec tv tf =
      ⟨finalize_reset (vad_stage s1 wb tv)
          (classify_final (vad_stage s1 wb tv) tf),
        some ⟨text, classify_final (vad_stage s1 wb tv) tf, 0, 0⟩,
        true⟩ := by
  unfold run_iteration; rw [h]; simp [hlen, hdec]

theorem add_audio_had_speech (s : EngineState) (pcm : List ℚ) :
    (add_audio s pcm).had_speech = s.had_speech := by
  simp only [add_audio]
  split_ifs <;> rfl

theorem add_audio_last_voice_time (s : EngineState) (pcm : List ℚ) :
    (add_audio s pcm).last_voice_time = s.last_voice_time := by
  simp only [add_audio]
  split_ifs <;> rfl

theorem vad_stage_had_speech (s : EngineState) (wb : List ℚ) (t : ℤ) :
    (vad_stage s wb t).had_speech = (voice_now wb || s.had_speech) := by
  unfold vad_stage
  cases h : voice_now wb <;> simp [h]

theorem sumSquares_replicate (n : ℕ) (c : ℚ) :
    sumSquares (List.replicate n c) = n * (c * c) := by
  simp [sumSquares, List.map_replicate, List.sum_replicate, nsmul_eq_mul]

theorem meanSquare_replicate (n : ℕ) (c : ℚ) (h : n ≠ 0) :
    meanSquare (List.replicate n c) = c * c := by
  have hn : (n : ℚ) ≠ 0 := Nat.cast_ne_zero.mpr h
  simp [meanSquare, h, sumSquares_replicate, mul_div_assoc, div_self hn]

theorem vad_window_replicate (n : ℕ) (c : ℚ) :
    vad_window (List.replicate n c) =
      List.replicate (min n vad_window_samples) c := by
  simp only [vad_window, List.length_replicate, List.drop_replicate]
  congr 1
  omega

theorem spec_voice_now_replicate (θ : ℚ) (n : ℕ) (c : ℚ) (hn : n ≠ 0) :
    spec_voice_now θ (List.replicate n c) = decide (θ ^ 2 ≤ c * c) := by
  have hmin : min n vad_window_samples ≠ 0 := by
    simp [vad_window_samples]; omega
  rw [spec_voice_now, vad_window_replicate, meanSquare_replicate _ _ hmin]

theorem voice_now_replicate (n : ℕ) (c : ℚ) (hn : n ≠ 0) :
    voice_now (List.replicate n c) =
      decide (ENERGY_THRESHOLD ^ 2 ≤ c * c) :=
  spec_voice_now_replicate ENERGY_THRESHOLD n c hn

theorem classify_final_eq (s : EngineState) (now : ℤ) :
    classify_final s now =
      (s.had_speech &&
        decide (SILENCE_THRESHOLD_MS ≤ now - s.last_voice_time)) := rfl

theorem finalize_reset_true (s : EngineState) :
    finalize_reset s true =
      { s with
          audio_buffer := []
          processed_samples := 0
          had_speech := false } := rfl

theorem finalize_reset_false (s : EngineState) :
    finalize_reset s false = s := rfl

theorem voice_now_loud : voice_now (List.replicate 16000 (1:ℚ)) = true := by
  rw [voice_now_replicate _ _ (by norm_num)]
  rw [decide_eq_true_iff]
  norm_num [ENERGY_THRESHOLD]

theorem voice_now_silent :
    voice_now (List.replicate 16000 (0:ℚ)) = false := by
  rw [voice_now_replicate _ _ (by norm_num)]
  rw [decide_eq_false_iff_not]
  norm_num [ENERGY_THRESHOLD]

theorem classify_final_update (s : EngineState) (b : Bool) (t now : ℤ) :
    classify_final { s with had_speech := b, last_voice_time := t } now =
      (b && decide (SILENCE_THRESHOLD_MS ≤ now - t)) := rfl

theorem loud_snapshot : snapshot_stage loudState =
    some (List.replicate 16000 (1:ℚ),
      { loudState with processed_samples := 16000 }) := by
  have hlen : loudState.audio_buffer.length = 16000 :=
    List.length_replicate 16000 1
  have h : loudState.processed_samples < loudState.audio_buffer.length := by
    rw [hlen]; show (0:ℕ) < 16000; norm_num
  have hstart : snap_start loudState = 0 := by
    unfold snap_start
    rw [if_neg (show ¬ (loudState.processed_samples > one_second_samples)
      from fun hc => Nat.not_lt_zero _ hc)]
  rw [snapshot_stage_eq_some h, hstart, hlen, List.drop_zero]
  rfl

theorem silent_snapshot : snapshot_stage silentState =
    some (List.replicate 16000 (0:ℚ),
      { silentState with processed_samples := 16000 }) := by
  have hlen : silentState.audio_buffer.length = 16000 :=
    List.length_replicate 16000 0
  have h : silentState.processed_samples < silentState.audio_buffer.length := by
    rw [hlen]; show (0:ℕ) < 16000; norm_num
  have hstart : snap_start silentState = 0 := by
    unfold snap_start
    rw [if_neg (show ¬ (silentState.processed_samples > one_second_samples)
      from fun hc => Nat.not_lt_zero _ hc)]
  rw [snapshot_stage_eq_some h, hstart, hlen, List.drop_zero]
  rfl

theorem short_snapshot : snapshot_stage shortState =
    some (List.replicate 100 (1:ℚ),
      { shortState with processed_samples := 100 }) := by
  have hlen : shortState.audio_buffer.length = 100 :=
    List.length_replicate 100 1
  have h : shortState.processed_samples < shortState.audio_buffer.length := by
    rw [hlen]; show (0:ℕ) < 100; norm_num
  have hstart : snap_start shortState = 0 := by
    unfold snap_start
    rw [if_neg (show ¬ (shortState.processed_samples > one_second_samples)
      from fun hc => Nat.not_lt_zero _ hc)]
  rw [snapshot_stage_eq_some h, hstart, hlen, List.drop_zero]
  rfl

theorem not_short_16000 {c : ℚ} :
    ¬ (List.replicate 16000 c).length < min_chunk_samples := by
  rw [List.length_replicate]
  norm_num [min_chunk_samples, sample_rate]

theorem loud_run :
    run_iteration params0 loudState dec_hello 0 700 =
      ⟨⟨[], 0, false, 0⟩, some ⟨"hello", true, 0, 0⟩, true⟩ := by
  rw [run_iteration_of_decode_ok 0 700 loud_snapshot not_short_16000 rfl]
  rw [vad_stage_of_voice _ _ voice_now_loud]
  rw [classify_final_update]
  rw [show (true && decide ((SILENCE_THRESHOLD_MS : ℤ) ≤ 700 - 0)) = true
    from by decide]
  rw [finalize_reset_true]

/-! ## C2 -/

/-- C2: for every sequence of append and worker-pass operations starting
from the initial store, at every observation point
`processed_samples ≤ length (audio_buffer) ≤ MAX_BUFFER_SECONDS × sample_rate`;
when `add_audio` trims, the kept buffer is exactly the appended buffer
with its oldest `r` samples dropped (so the trimmed prefix and the kept
suffix reassemble the appended buffer) and `processed_samples` is shifted
down by `r`, floored at zero; and after a full clear (the finalization
reset) `processed_samples = 0`. -/
theorem C2_store_invariants :
    (∀ ops : List StoreOp, StoreInv (ops.foldl applyOp initState)) ∧
    (∀ (s : EngineState) (pcm : List ℚ),
      max_samples < (s.audio_buffer ++ pcm).length →
      (add_audio s pcm).audio_buffer =
        (s.audio_buffer ++ pcm).drop
          ((s.audio_buffer ++ pcm).length - max_samples) ∧
      (s.audio_buffer ++ pcm).take
          ((s.audio_buffer ++ pcm).length - max_samples) ++
        (add_audio s pcm).audio_buffer = s.audio_buffer ++ pcm ∧
      ((add_audio s pcm).processed_samples : ℤ) =
        max ((s.processed_samples : ℤ) -
          ((s.audio_buffer ++ pcm).length - max_samples)) 0) ∧
    (∀ s : EngineState,
      (finalize_reset s true).processed_samples = 0 ∧
      (finalize_reset s true).audio_buffer = []) := by
  refine ⟨fun ops => foldl_StoreInv ops initState initState_StoreInv,
    fun s pcm hc => ?_, fun s => ⟨rfl, rfl⟩⟩
  have hmax := max_samples_pos
  have hc' : (s.audio_buffer ++ pcm).length > max_samples := hc
  have hr : ¬ ((s.audio_buffer ++ pcm).length - max_samples ≥
      (s.audio_buffer ++ pcm).length) := by omega
  have hbuf : (add_audio s pcm).audio_buffer =
      (s.audio_buffer ++ pcm).drop
        ((s.audio_buffer ++ pcm).length - max_samples) := by
    simp only [add_audio]
    rw [if_pos hc', if_neg hr]
  have hproc : (add_audio s pcm).processed_samples =
      if s.processed_samples >
          (s.audio_buffer ++ pcm).length - max_samples then
        s.processed_samples -
          ((s.audio_buffer ++ pcm).length - max_samples)
      else 0 := by
    simp only [add_audio]
    rw [if_pos hc', if_neg hr]
  refine ⟨hbuf, ?_, ?_⟩
  · rw [hbuf]; exact List.take_append_drop _ _
  · rw [hproc]
    split_ifs with hp <;> push_cast <;> omega

/-- Witness for C2: a concrete append/pass sequence satisfies the
invariant, and appending to a concrete overfull buffer shifts the
processed offset from 5 down to 4 when one sample is trimmed. -/
theorem C2_store_invariants_witness :
    StoreInv ([StoreOp.append [1],
      StoreOp.pass params0 dec_hello 0 0].foldl applyOp initState) ∧
    ((add_audio ⟨List.replicate (max_samples + 1) 0, 5, false, 0⟩
        []).processed_samples : ℤ) = 4 := by
  constructor
  · exact C2_store_invariants.1 _
  · have h := (C2_store_invariants.2.1
      ⟨List.replicate (max_samples + 1) 0, 5, false, 0⟩ []
      (by simp)).2.2
    simp only [List.append_nil, List.length_replicate] at h
    rw [h]
    omega

/-! ## C1 -/

theorem run_iteration_final_state (p : InferenceParams) (s : EngineState)
    (dec : InferenceParams → List ℚ → Option String) (tv tf : ℤ)
    (r : TranscriptionResult)
    (hr : (run_iteration p s dec tv tf).emitted = some r)
    (hf : r.is_final = true) :
    (run_iteration p s dec tv tf).state.audio_buffer = [] ∧
    (run_iteration p s dec tv tf).state.processed_samples = 0 ∧
    (run_iteration p s dec tv tf).state.had_speech = false := by
  cases hsnap : snapshot_stage s with
  | none => rw [run_iteration_of_none p dec tv tf hsnap] at hr; cases hr
  | some pair =>
    obtain ⟨wb, s1⟩ := pair
    by_cases hlen : wb.length < min_chunk_samples
    · rw [run_iteration_of_short p dec tv tf hsnap hlen] at hr; cases hr
    · cases hdec : dec p wb with
      | none =>
        rw [run_iteration_of_decode_fail tv tf hsnap hlen hdec] at hr
        simp only [Option.some.injEq] at hr
        rw [← hr] at hf
        cases hf
      | some text =>
        rw [run_iteration_of_decode_ok tv tf hsnap hlen hdec] at hr ⊢
        simp only [Option.some.injEq] at hr
        rw [← hr] at hf
        simp only [] at hf
        simp [finalize_reset, hf]

theorem run_iteration_speech_drop (p : InferenceParams) (s : EngineState)
    (dec : InferenceParams → List ℚ → Option String) (tv tf : ℤ)
    (hs : s.had_speech = true)
    (hdrop : (run_iteration p s dec tv tf).state.had_speech = false) :
    ∃ r : TranscriptionResult,
      (run_iteration p s dec tv tf).emitted = some r ∧
      r.is_final = true := by
  cases hsnap : snapshot_stage s with
  | none =>
    rw [run_iteration_of_none p dec tv tf hsnap] at hdrop
    rw [hs] at hdrop; cases hdrop
  | some pair =>
    obtain ⟨wb, s1⟩ := pair
    obtain ⟨hlt, hwb, hs1⟩ := snapshot_stage_inversion hsnap
    have hs1speech : s1.had_speech = true := by rw [hs1]; exact hs
    by_cases hlen : wb.length < min_chunk_samples
    · rw [run_iteration_of_short p dec tv tf hsnap hlen] at hdrop
      rw [hs1speech] at hdrop; cases hdrop
    · have hs2speech : (vad_stage s1 wb tv).had_speech = true := by
        rw [vad_stage_had_speech, hs1speech, Bool.or_true]
      cases hdec : dec p wb with
      | none =>
        rw [run_iteration_of_decode_fail tv tf hsnap hlen hdec] at hdrop
        rw [hs2speech] at hdrop; cases hdrop
      | some text =>
        rw [run_iteration_of_decode_ok tv tf hsnap hlen hdec] at hdrop ⊢
        by_cases hcf : classify_final (vad_stage s1 wb tv) tf = true
        · exact ⟨⟨text, true, 0, 0⟩, by rw [hcf], rfl⟩
        · rw [Bool.not_eq_true] at hcf
          rw [hcf] at hdrop
          simp only [finalize_reset, if_neg (Bool.false_ne_true)] at hdrop
          rw [hs2speech] at hdrop; cases hdrop

/-- C1: immediately after a worker pass emits a result with
`is_final = true`, the buffer is empty, `processed_samples = 0`, and
`had_speech = false`, for every prior engine state; and `had_speech`
drops from true to false only on a pass that emits a final result — in
particular a producer `add_audio` never changes it. -/
theorem C1_final_reset (p : InferenceParams) (s : EngineState)
    (dec : InferenceParams → List ℚ → Option String) (tv tf : ℤ) :
    (∀ r : TranscriptionResult,
      (run_iteration p s dec tv tf).emitted = some r → r.is_final = true →
      (run_iteration p s dec tv tf).state.audio_buffer = [] ∧
      (run_iteration p s dec tv tf).state.processed_samples = 0 ∧
      (run_iteration p s dec tv tf).state.had_speech = false) ∧
    (s.had_speech = true →
      (run_iteration p s dec tv tf).state.had_speech = false →
      ∃ r : TranscriptionResult,
        (run_iteration p s dec tv tf).emitted = some r ∧
        r.is_final = true) ∧
    (∀ pcm : List ℚ, (add_audio s pcm).had_speech = s.had_speech) :=
  ⟨fun r hr hf => run_iteration_final_state p s dec tv tf r hr hf,
   fun hs hdrop => run_iteration_speech_drop p s dec tv tf hs hdrop,
   fun pcm => add_audio_had_speech s pcm⟩

/-- Witness for C1: a concrete pass on a loud one-second buffer emits a
final result, after which the buffer is empty and `had_speech` is
false. -/
theorem C1_final_reset_witness :
    (run_iteration params0 loudState dec_hello 0 700).state.audio_buffer
        = [] ∧
    (run_iteration params0 loudState dec_hello 0 700).state.processed_samples
        = 0 ∧
    (run_iteration params0 loudState dec_hello 0 700).state.had_speech
        = false :=
  (C1_final_reset params0 loudState dec_hello 0 700).1
    ⟨"hello", true, 0, 0⟩ (by rw [loud_run]) rfl

/-! ## C3 -/

/-- C3: on every successful decode pass the emitted result is final
exactly when `had_speech` (after the VAD update) holds and the elapsed
time since `last_voice_time` is at least the 700 ms silence threshold;
in the no-further-voice scenario with `had_speech` already true at time
T, a pass whose finality check happens at time ≥ T + 700 is final and a
pass before that is not. -/
theorem C3_finality_classification (p : InferenceParams) (s s1 : EngineState)
    (wb : List ℚ) (dec : InferenceParams → List ℚ → Option String)
    (tv tf : ℤ) (text : String)
    (hsnap : snapshot_stage s = some (wb, s1))
    (hlen : ¬ wb.length < min_chunk_samples)
    (hdec : dec p wb = some text) :
    (run_iteration p s dec tv tf).emitted =
      some ⟨text,
        (vad_stage s1 wb tv).had_speech &&
          decide (SILENCE_THRESHOLD_MS ≤
            tf - (vad_stage s1 wb tv).last_voice_time), 0, 0⟩ ∧
    (s.had_speech = true → voice_now wb = false →
      ∀ r : TranscriptionResult,
        (run_iteration p s dec tv tf).emitted = some r →
        (r.is_final = true ↔
          s.last_voice_time + SILENCE_THRESHOLD_MS ≤ tf)) := by
  obtain ⟨hlt, hwb, hs1⟩ := snapshot_stage_inversion hsnap
  rw [run_iteration_of_decode_ok tv tf hsnap hlen hdec]
  constructor
  · rfl
  · intro hs hnv r hr
    simp only [Option.some.injEq] at hr
    rw [← hr]
    rw [vad_stage_of_silence _ _ hnv] at hr ⊢
    have hh : s1.had_speech = true := by rw [hs1]; exact hs
    have hl : s1.last_voice_time = s.last_voice_time := by rw [hs1]
    show classify_final s1 tf = true ↔ _
    rw [classify_final_eq, hh, hl, Bool.true_and, decide_eq_true_iff]
    omega

/-- Witness for C3: on a silent window with speech flagged at instant 0,
the pass whose finality check happens at 700 ms emits a final result,
and the finality is equivalent to `0 + 700 ≤ 700`. -/
theorem C3_finality_witness :
    (run_iteration params0 silentState dec_hello 0 700).emitted =
      some ⟨"hello", true, 0, 0⟩ ∧
    silentState.last_voice_time + SILENCE_THRESHOLD_MS ≤ 700 := by
  have h := C3_finality_classification params0 silentState
    { silentState with processed_samples := 16000 }
    (List.replicate 16000 (0:ℚ)) dec_hello 0 700 "hello"
    silent_snapshot not_short_16000 rfl
  have hemit : (run_iteration params0 silentState dec_hello 0 700).emitted =
      some ⟨"hello", true, 0, 0⟩ := by
    rw [h.1, vad_stage_of_silence _ _ voice_now_silent]
    rw [show ({ silentState with processed_samples := 16000 } :
      EngineState).had_speech = true from rfl]
    rw [show ({ silentState with processed_samples := 16000 } :
      EngineState).last_voice_time = 0 from rfl]
    rw [show decide ((SILENCE_THRESHOLD_MS : ℤ) ≤ 700 - 0) = true
      from by decide, Bool.true_and]
  exact ⟨hemit,
    (h.2 rfl voice_now_silent ⟨"hello", true, 0, 0⟩ hemit).mp rfl⟩

/-! ## C4 -/

/-- C4: the VAD computes its decision over only the trailing 300 ms slice
of the window (the whole window when it is shorter than 300 ms),
classifies voice exactly when the root-mean-square of that slice is at
least the energy threshold, leaves `had_speech` and `last_voice_time`
untouched when the RMS is strictly below the threshold, and sets
`had_speech := true` and refreshes `last_voice_time` to now when at or
above. -/
theorem C4_vad_trailing_rms (wb : List ℚ) (s : EngineState) (t : ℤ) :
    ((vad_window wb).length = min wb.length (3 * sample_rate / 10) ∧
      wb.take (wb.length - (vad_window wb).length) ++ vad_window wb = wb) ∧
    (wb.length ≤ vad_window_samples → vad_window wb = wb) ∧
    (voice_now wb = true ↔
      ((ENERGY_THRESHOLD : ℚ) : ℝ) ≤
        Real.sqrt ((meanSquare (vad_window wb) : ℚ) : ℝ)) ∧
    (voice_now wb = false → vad_stage s wb t = s) ∧
    (voice_now wb = true →
      (vad_stage s wb t).had_speech = true ∧
      (vad_stage s wb t).last_voice_time = t) := by
  have hwlen : (vad_window wb).length =
      min wb.length vad_window_samples := by
    simp only [vad_window, List.length_drop]
    omega
  refine ⟨⟨?_, ?_⟩, ?_, ?_, ?_, ?_⟩
  · rw [hwlen, show 3 * sample_rate / 10 = vad_window_samples from by
      norm_num [sample_rate, vad_window_samples]]
  · rw [hwlen]
    show wb.take (wb.length - min wb.length vad_window_samples) ++
      wb.drop (wb.length - min wb.length vad_window_samples) = wb
    exact List.take_append_drop _ wb
  · intro hle
    show wb.drop (wb.length - min wb.length vad_window_samples) = wb
    rw [Nat.min_eq_left hle, Nat.sub_self, List.drop_zero]
  · show decide (ENERGY_THRESHOLD ^ 2 ≤ meanSquare (vad_window wb)) =
      true ↔ _
    rw [decide_eq_true_iff]
    rw [Real.le_sqrt' (by norm_num [ENERGY_THRESHOLD])]
    rw [show ((ENERGY_THRESHOLD : ℚ) : ℝ) ^ 2 =
      ((ENERGY_THRESHOLD ^ 2 : ℚ) : ℝ) from by push_cast; ring]
    exact Iff.symm Rat.cast_le
  · exact vad_stage_of_silence s t
  · intro hv
    rw [vad_stage_of_voice _ _ hv]
    exact ⟨rfl, rfl⟩

/-- Witness for C4: a one-element window is its own VAD slice, a loud
window sets `had_speech` and refreshes `last_voice_time` to 5, and a
silent window leaves the state untouched. -/
theorem C4_vad_witness :
    vad_window [(1:ℚ)] = [(1:ℚ)] ∧
    (vad_stage initState (List.replicate 16000 (1:ℚ)) 5).had_speech =
      true ∧
    (vad_stage initState (List.replicate 16000 (1:ℚ)) 5).last_voice_time =
      5 ∧
    vad_stage silentState (List.replicate 16000 (0:ℚ)) 9 = silentState :=
  ⟨(C4_vad_trailing_rms [(1:ℚ)] initState 0).2.1
      (by norm_num [vad_window_samples]),
    ((C4_vad_trailing_rms (List.replicate 16000 (1:ℚ)) initState 5).2.2.2.2
      voice_now_loud).1,
    ((C4_vad_trailing_rms (List.replicate 16000 (1:ℚ)) initState 5).2.2.2.2
      voice_now_loud).2,
    (C4_vad_trailing_rms (List.replicate 16000 (0:ℚ)) silentState 9).2.2.2.1
      voice_now_silent⟩

/-! ## C5 -/

/-- C5: when the extracted window is shorter than the minimum chunk
(0.5 s), the pass is skipped: no decode call, no callback, and the
VAD/finality state and the buffer are untouched (only the processed
offset advances to the tail). -/
theorem C5_short_window_skip (p : InferenceParams) (s s1 : EngineState)
    (wb : List ℚ) (dec : InferenceParams → List ℚ → Option String)
    (tv tf : ℤ) (hsnap : snapshot_stage s = some (wb, s1))
    (hshort : wb.length < min_chunk_samples) :
    run_iteration p s dec tv tf = ⟨s1, none, false⟩ ∧
    s1.had_speech = s.had_speech ∧
    s1.last_voice_time = s.last_voice_time ∧
    s1.audio_buffer = s.audio_buffer := by
  obtain ⟨hlt, hwb, hs1⟩ := snapshot_stage_inversion hsnap
  exact ⟨run_iteration_of_short p dec tv tf hsnap hshort,
    by rw [hs1], by rw [hs1], by rw [hs1]⟩

/-- Witness for C5: a 100-sample buffer yields a skipped pass — no
decode call, no emission, state unchanged except the offset. -/
theorem C5_short_window_witness :
    run_iteration params0 shortState dec_hello 0 0 =
      ⟨{ shortState with processed_samples := 100 }, none, false⟩ :=
  (C5_short_window_skip params0 shortState _ _ dec_hello 0 0 short_snapshot
    (by rw [List.length_replicate]
        norm_num [min_chunk_samples, sample_rate])).1

/-! ## C6 -/

/-- C6: snapshot semantics — an offset at or past the tail (e.g. after a
concurrent clear) yields no window, no decode and no callback, treated
as no new data rather than an error; otherwise the window is the copy
from `max 0 (offset − overlap)` to the tail and the offset advances to
the tail length. -/
theorem C6_snapshot_semantics (s : EngineState) :
    (s.audio_buffer.length ≤ s.processed_samples →
      snapshot_stage s = none ∧
      ∀ (p : InferenceParams)
        (dec : InferenceParams → List ℚ → Option String) (tv tf : ℤ),
        run_iteration p s dec tv tf = ⟨s, none, false⟩) ∧
    (s.processed_samples < s.audio_buffer.length →
      snapshot_stage s = some (s.audio_buffer.drop (snap_start s),
        { s with processed_samples := s.audio_buffer.length })) ∧
    ((snap_start s : ℤ) =
      max ((s.processed_samples : ℤ) - (one_second_samples : ℤ)) 0) := by
  refine ⟨fun h => ⟨snapshot_stage_eq_none h,
    fun p dec tv tf => run_iteration_of_none p dec tv tf
      (snapshot_stage_eq_none h)⟩,
    fun h => snapshot_stage_eq_some h, ?_⟩
  unfold snap_start
  split_ifs with hp <;> push_cast <;> omega

/-- Witness for C6: a cleared store with a stale offset gives a no-op
pass; a one-sample store snapshots that sample; an offset of 20000 gives
window start 4000. -/
theorem C6_snapshot_witness :
    run_iteration params0 ⟨[], 7, true, 0⟩ dec_hello 1 2 =
      ⟨⟨[], 7, true, 0⟩, none, false⟩ ∧
    snapshot_stage ⟨[(2:ℚ)], 0, false, 0⟩ =
      some ([(2:ℚ)], ⟨[(2:ℚ)], 1, false, 0⟩) ∧
    (snap_start ⟨[(2:ℚ)], 20000, false, 0⟩ : ℤ) = 4000 := by
  refine ⟨((C6_snapshot_semantics ⟨[], 7, true, 0⟩).1
      (by norm_num)).2 params0 dec_hello 1 2, ?_, ?_⟩
  · have h := (C6_snapshot_semantics ⟨[(2:ℚ)], 0, false, 0⟩).2.1
      (by norm_num)
    rw [h]
    rfl
  · rw [(C6_snapshot_semantics ⟨[(2:ℚ)], 20000, false, 0⟩).2.2]
    show max ((20000 : ℤ) - (one_second_samples : ℤ)) 0 = 4000
    norm_num [one_second_samples, sample_rate]

/-! ## C7 -/

/-- C7: on decode failure the pass emits a result with empty text and
`is_final = false`, the resulting state is exactly the post-VAD state
entering the engine call (in particular the buffer equals the pre-pass
buffer and the offset the tail length), and the pass completes normally
so the worker continues with the next iteration. -/
theorem C7_decode_failure (p : InferenceParams) (s s1 : EngineState)
    (wb : List ℚ) (dec : InferenceParams → List ℚ → Option String)
    (tv tf : ℤ) (hsnap : snapshot_stage s = some (wb, s1))
    (hlen : ¬ wb.length < min_chunk_samples)
    (hdec : dec p wb = none) :
    run_iteration p s dec tv tf =
      ⟨vad_stage s1 wb tv, some ⟨"", false, 0, 0⟩, true⟩ ∧
    (run_iteration p s dec tv tf).state.audio_buffer = s.audio_buffer ∧
    (run_iteration p s dec tv tf).state.processed_samples =
      s.audio_buffer.length := by
  obtain ⟨hlt, hwb, hs1⟩ := snapshot_stage_inversion hsnap
  have heq := run_iteration_of_decode_fail tv tf hsnap hlen hdec
  refine ⟨heq, ?_, ?_⟩
  · rw [heq]
    show (vad_stage s1 wb tv).audio_buffer = s.audio_buffer
    rw [vad_stage_audio_buffer, hs1]
  · rw [heq]
    show (vad_stage s1 wb tv).processed_samples = s.audio_buffer.length
    rw [vad_stage_processed, hs1]

/-- Witness for C7: a failing decode on the loud buffer emits the empty
non-final result and keeps the whole buffer. -/
theorem C7_decode_failure_witness :
    (run_iteration params0 loudState dec_fail 0 700).emitted =
      some ⟨"", false, 0, 0⟩ ∧
    (run_iteration params0 loudState dec_fail 0 700).state.audio_buffer =
      List.replicate 16000 (1:ℚ) := by
  have h := C7_decode_failure params0 loudState _ _ dec_fail 0 700
    loud_snapshot not_short_16000 rfl
  exact ⟨by rw [h.1], h.2.1⟩

/-! ## C8

The claim says the VAD energy threshold is a field of the immutable
configuration. In the source, `InferenceParams` (inference.hpp lines
12–17) has fields `model_path`, `language`, `translate`, `n_threads`
only; the decision in `run` compares the trailing RMS against the
function-local constant `ENERGY_THRESHOLD = 0.003f` (inference.cpp line
166). So the decision is not a function of any configured threshold. -/

/-- C8 counterexample: a 300 ms window of constant amplitude 0.005 — RMS
0.005, above the code's fixed 0.003 but below a configured threshold of
0.01 from the spec's tuning range (0.003–0.02). The code classifies
voice, while the spec-modelled configurable VAD at threshold 0.01
classifies silence — the decision follows the fixed constant, not a
configuration field (which `InferenceParams` does not have). -/
theorem C8_counterexample :
    voice_now (List.replicate 4800 (5 / 1000 : ℚ)) = true ∧
    spec_voice_now (1 / 100) (List.replicate 4800 (5 / 1000 : ℚ)) =
      false ∧
    ENERGY_THRESHOLD = 3 / 1000 := by
  refine ⟨?_, ?_, rfl⟩
  · rw [voice_now_replicate _ _ (by norm_num), decide_eq_true_iff]
    norm_num [ENERGY_THRESHOLD]
  · rw [spec_voice_now_replicate _ _ _ (by norm_num),
      decide_eq_false_iff_not]
    norm_num

/-- C8 amended: the VAD energy threshold is the fixed local constant
0.003 inside `InferenceEngine::run`, not a field of the configuration:
the voice/silence decision compares the trailing RMS against that
constant, coincides with the spec-modelled configurable VAD only at that
one threshold value, and an entire worker pass is invariant under any
change of the engine configuration (with the external decode oracle held
fixed). -/
theorem C8_amended_fixed_threshold (p q : InferenceParams) (wb : List ℚ)
    (s : EngineState) (dec : List ℚ → Option String) (tv tf : ℤ) :
    voice_now wb =
      decide (ENERGY_THRESHOLD ^ 2 ≤ meanSquare (vad_window wb)) ∧
    voice_now wb = spec_voice_now ENERGY_THRESHOLD wb ∧
    run_iteration p s (fun _ w => dec w) tv tf =
      run_iteration q s (fun _ w => dec w) tv tf :=
  ⟨rfl, rfl, rfl⟩

/-! ## C9

The claim's "no acquired resources left behind" part fails on the code:
when the engine model loads successfully but `ma_device_start` fails,
`start_engine` reports the error and stays not-processing, yet the
global unique_ptrs keep the loaded whisper context and the initialized
miniaudio context/device; `stop_engine` returns early when
`!is_processing`, so nothing releases them until a later `start`
replaces the globals or the process exits. -/

/-- C9 counterexample: from idle, with the model loading fine and the
capture device initializing but failing to start, exactly one error is
emitted and the pipeline stays not-processing — but the loaded model
context and the initialized miniaudio context/device remain held in the
globals: acquired resources are left behind. -/
theorem C9_counterexample :
    (start_engine idleState true true true false).2 =
      [Event.error "Failed to start audio"] ∧
    (start_engine idleState true true true false).1.is_processing =
      false ∧
    resources_held (start_engine idleState true true true false).1 =
      true ∧
    (start_engine idleState true true true false).1.inference_engine =
      some ⟨true⟩ ∧
    (start_engine idleState true true true false).1.audio_capture =
      some ⟨true, true, false⟩ := by
  refine ⟨rfl, rfl, rfl, rfl, rfl⟩

/-- C9 amended: every start command yields exactly one event, which is
`status{started}` or an error; a start while already running is rejected
with an error and no state change; started is reported exactly when model
init, audio init and audio start all succeed; on failure the pipeline
stays not-processing (Idle) — but when the model had loaded and the
start still failed, acquired resources remain held in the globals rather
than being released. -/
theorem C9_amended_start_protocol (g : GlobalState)
    (whisperOk ctxOk devOk startOk : Bool) :
    ((start_engine g whisperOk ctxOk devOk startOk).2.length = 1) ∧
    (∀ e : Event, (start_engine g whisperOk ctxOk devOk startOk).2 = [e] →
      e = Event.statusStarted ∨ ∃ msg, e = Event.error msg) ∧
    (g.is_processing = true →
      start_engine g whisperOk ctxOk devOk startOk =
        (g, [Event.error "Already running"])) ∧
    (g.is_processing = false →
      ((start_engine g whisperOk ctxOk devOk startOk).2 =
          [Event.statusStarted] ↔
        (whisperOk && ctxOk && devOk && startOk) = true)) ∧
    (g.is_processing = false →
      (start_engine g whisperOk ctxOk devOk startOk).2 ≠
        [Event.statusStarted] →
      (start_engine g whisperOk ctxOk devOk startOk).1.is_processing =
        false) ∧
    (g.is_processing = false → whisperOk = true →
      (start_engine g whisperOk ctxOk devOk startOk).2 ≠
        [Event.statusStarted] →
      resources_held (start_engine g whisperOk ctxOk devOk startOk).1 =
        true) := by
  cases hg : g.is_processing <;>
    cases whisperOk <;> cases ctxOk <;> cases devOk <;> cases startOk <;>
    simp [start_engine, capture_start, resources_held, hg]

/-- Witness for C9 at concrete inputs: a start while running is
rejected unchanged, and an all-successful start from idle reports
started. -/
theorem C9_amended_witness :
    start_engine ⟨none, none, true⟩ true true true true =
      (⟨none, none, true⟩, [Event.error "Already running"]) ∧
    (start_engine idleState true true true true).2 =
      [Event.statusStarted] := by
  constructor
  · exact (C9_amended_start_protocol ⟨none, none, true⟩
      true true true true).2.2.1 rfl
  · exact ((C9_amended_start_protocol idleState
      true true true true).2.2.2.1 rfl).mpr rfl

/-! ## C10 -/

/-- C10: once the processed offset exceeds one second (the overlap
length), any pass with new audio extracts a window longer than one
second — hence at least the minimum chunk — and always reaches the
decode call; conversely, a pass with new data that skips on the
minimum-chunk test can only happen while the offset is within the first
second. -/
theorem C10_overlap_window (p : InferenceParams) (s : EngineState)
    (dec : InferenceParams → List ℚ → Option String) (tv tf : ℤ)
    (hover : one_second_samples < s.processed_samples)
    (hnew : s.processed_samples < s.audio_buffer.length) :
    ((s.audio_buffer.drop (snap_start s)).length =
       s.audio_buffer.length - s.processed_samples + one_second_samples ∧
     one_second_samples < (s.audio_buffer.drop (snap_start s)).length ∧
     min_chunk_samples ≤ (s.audio_buffer.drop (snap_start s)).length ∧
     (run_iteration p s dec tv tf).decode_called = true) ∧
    (∀ s2 : EngineState, s2.processed_samples < s2.audio_buffer.length →
      (run_iteration p s2 dec tv tf).decode_called = false →
      s2.processed_samples ≤ one_second_samples) := by
  have hms : min_chunk_samples ≤ one_second_samples := Nat.div_le_self _ _
  have hstart : snap_start s =
      s.processed_samples - one_second_samples := by
    unfold snap_start
    rw [if_pos hover]
  have hwlen : (s.audio_buffer.drop (snap_start s)).length =
      s.audio_buffer.length - s.processed_samples + one_second_samples := by
    rw [hstart, List.length_drop]
    omega
  have hnot : ¬ (s.audio_buffer.drop (snap_start s)).length <
      min_chunk_samples := by
    rw [hwlen]; omega
  refine ⟨⟨hwlen, by rw [hwlen]; omega, by rw [hwlen]; omega, ?_⟩, ?_⟩
  · have hsnap := snapshot_stage_eq_some hnew
    cases hdec : dec p (s.audio_buffer.drop (snap_start s)) with
    | none => rw [run_iteration_of_decode_fail tv tf hsnap hnot hdec]
    | some text => rw [run_iteration_of_decode_ok tv tf hsnap hnot hdec]
  · intro s2 hnew2 hskip
    by_contra hgt
    push_neg at hgt
    have hstart2 : snap_start s2 =
        s2.processed_samples - one_second_samples := by
      unfold snap_start
      rw [if_pos hgt]
    have hnot2 : ¬ (s2.audio_buffer.drop (snap_start s2)).length <
        min_chunk_samples := by
      rw [hstart2, List.length_drop]; omega
    have hsnap2 := snapshot_stage_eq_some hnew2
    cases hdec : dec p (s2.audio_buffer.drop (snap_start s2)) with
    | none =>
      rw [run_iteration_of_decode_fail tv tf hsnap2 hnot2 hdec] at hskip
      simp only [] at hskip
      cases hskip
    | some text =>
      rw [run_iteration_of_decode_ok tv tf hsnap2 hnot2 hdec] at hskip
      simp only [] at hskip
      cases hskip

/-- Witness for C10: with 16001 samples processed and one new sample in
the buffer, the pass reaches the decode call. -/
theorem C10_overlap_witness :
    (run_iteration params0 ⟨List.replicate 16002 (0:ℚ), 16001, false, 0⟩
      dec_hello 0 0).decode_called = true :=
  ((C10_overlap_window params0
    ⟨List.replicate 16002 (0:ℚ), 16001, false, 0⟩ dec_hello 0 0
    (by show one_second_samples < 16001
        norm_num [one_second_samples, sample_rate])
    (by show (16001 : ℕ) < (List.replicate 16002 (0:ℚ)).length
        rw [List.length_replicate]
        norm_num)).1.2.2.2)

end SnapLLM
